import Mathlib

/-!
Verification of the rcards interaction core: the global card store
(src/hooks/useCardStore.ts), the booster-scene gesture and timer logic
(BoosterScene/BoosterPack), the zoom controller (scroll-to-pan variant),
the booster pull helper, and the rarity lookup fallbacks.

Machine numbers are modelled as ℚ (for pixel/scroll/timer arithmetic) and
ℝ (for the generic smoothing-step property); reveal indices are modelled
as ℤ because the store performs no bounds check on them.
-/

namespace RCards

/-- Card record from src/data/types.ts.  The rarity is kept as a raw string:
the rarity-keyed tables in the rendering layer are string-keyed records with
explicit fallbacks, and two different rarity enumerations coexist in the
repository. -/
structure Card where
  id : String
  name : String
  rarity : String
  cardSet : String
  description : String
  artworkUrl : String
  backUrl : Option String := none
  deriving DecidableEq, Repr, Inhabited

/-- View mode from useCardStore.ts. -/
inductive ViewMode where
  | gallery
  | inspect
  | booster
  deriving DecidableEq, Repr

/-- GPU tier from useCardStore.ts. -/
inductive GpuTier where
  | high
  | medium
  | low
  deriving DecidableEq, Repr

/-- Booster phase from useCardStore.ts (type BoosterState). -/
inductive BoosterState where
  | pack
  | opening
  | revealing
  | summary
  deriving DecidableEq, Repr

/-- The zustand store state of useCardStore.ts.  `revealedIndices` is a
`Set<number>` in the source; reveal indices are integers at every call
site, so it is modelled as a `Finset ℤ`. -/
structure CardStore where
  cards : List Card
  selectedCardId : Option String
  viewMode : ViewMode
  gpuTier : GpuTier
  boosterState : BoosterState
  boosterCards : List Card
  revealedIndices : Finset ℤ
  deriving DecidableEq

/-- The store initialiser of useCardStore.ts. -/
def initialStore : CardStore where
  cards := []
  selectedCardId := none
  viewMode := .gallery
  gpuTier := .high
  boosterState := .pack
  boosterCards := []
  revealedIndices := ∅

/-- setCards action. -/
def setCards (cs : List Card) (s : CardStore) : CardStore :=
  { s with cards := cs }

/-- selectCard action. -/
def selectCard (id : String) (s : CardStore) : CardStore :=
  { s with selectedCardId := some id, viewMode := .inspect }

/-- deselectCard action. -/
def deselectCard (s : CardStore) : CardStore :=
  { s with selectedCardId := none, viewMode := .gallery }

/-- setViewMode action. -/
def setViewMode (m : ViewMode) (s : CardStore) : CardStore :=
  { s with viewMode := m }

/-- setGpuTier action. -/
def setGpuTier (t : GpuTier) (s : CardStore) : CardStore :=
  { s with gpuTier := t }

/-- startBooster action. -/
def startBooster (pulledCards : List Card) (s : CardStore) : CardStore :=
  { s with
    viewMode := .booster
    boosterState := .pack
    boosterCards := pulledCards
    revealedIndices := ∅ }

/-- tearOpen action. -/
def tearOpen (s : CardStore) : CardStore :=
  { s with boosterState := .opening }

/-- finishOpening action. -/
def finishOpening (s : CardStore) : CardStore :=
  { s with boosterState := .revealing }

/-- revealCard action, useCardStore.ts lines 58-66: unconditionally inserts
the index into a copy of the revealed set and recomputes the phase from the
new set size alone. -/
def revealCard (index : ℤ) (s : CardStore) : CardStore :=
  let next := insert index s.revealedIndices
  { s with
    revealedIndices := next
    boosterState := if next.card = s.boosterCards.length then .summary else .revealing }

/-- closeBooster action. -/
def closeBooster (s : CardStore) : CardStore :=
  { s with
    viewMode := .gallery
    boosterState := .pack
    boosterCards := []
    revealedIndices := ∅ }

/-- One store action invocation (the store API of useCardStore.ts). -/
inductive Action where
  | setCards (cs : List Card)
  | selectCard (id : String)
  | deselectCard
  | setViewMode (m : ViewMode)
  | setGpuTier (t : GpuTier)
  | startBooster (cs : List Card)
  | tearOpen
  | finishOpening
  | revealCard (i : ℤ)
  | closeBooster

/-- Interpretation of one action on the store. -/
def applyAction : Action → CardStore → CardStore
  | .setCards cs, s => setCards cs s
  | .selectCard id, s => selectCard id s
  | .deselectCard, s => deselectCard s
  | .setViewMode m, s => setViewMode m s
  | .setGpuTier t, s => setGpuTier t s
  | .startBooster cs, s => startBooster cs s
  | .tearOpen, s => tearOpen s
  | .finishOpening, s => finishOpening s
  | .revealCard i, s => revealCard i s
  | .closeBooster, s => closeBooster s

/-- Running a list of store actions from a state. -/
def runActions (l : List Action) (s : CardStore) : CardStore :=
  l.foldl (fun st a => applyAction a st) s

/-- A store state is reachable when some action sequence produces it from
the initial store state. -/
def Reachable (s : CardStore) : Prop :=
  ∃ l : List Action, s = runActions l initialStore

/-- A concrete card used for closed instances. -/
def demoCard : Card where
  id := "card-001"
  name := "Demo"
  rarity := "classique"
  cardSet := "origines"
  description := ""
  artworkUrl := "/textures/cards/card-001.png"

/-- The set of in-range booster slot indices 0..n-1, as integers. -/
def intRange (n : ℕ) : Finset ℤ :=
  (Finset.range n).image (fun k : ℕ => (k : ℤ))

/-- Folding revealCard over a list of natural-number indices. -/
def revealSeq (l : List ℕ) (s : CardStore) : CardStore :=
  l.foldl (fun st i => revealCard (i : ℤ) st) s

/-- handleRevealAll from the application root:
`boosterCards.forEach((_, i) => revealCard(i))`. -/
def revealAll (s : CardStore) : CardStore :=
  revealSeq (List.range s.boosterCards.length) s

/-- A reachable store in the revealing phase holding a 1-card hand. -/
def storeRevealing1 : CardStore :=
  finishOpening (tearOpen (startBooster [demoCard] initialStore))

/-- A reachable store in the revealing phase holding a 2-card hand. -/
def storeRevealing2 : CardStore :=
  finishOpening (tearOpen (startBooster [demoCard, demoCard] initialStore))

/-- A reachable store in the opening phase whose revealed set is nonempty. -/
def storeOpeningRevealed : CardStore :=
  tearOpen (revealCard 0 (startBooster [demoCard] initialStore))

theorem revealCard_boosterCards (i : ℤ) (s : CardStore) :
    (revealCard i s).boosterCards = s.boosterCards := rfl

theorem revealCard_revealedIndices (i : ℤ) (s : CardStore) :
    (revealCard i s).revealedIndices = insert i s.revealedIndices := rfl

theorem revealCard_boosterState (i : ℤ) (s : CardStore) :
    (revealCard i s).boosterState =
      (if (insert i s.revealedIndices).card = s.boosterCards.length
        then .summary else .revealing) := rfl

theorem intRange_card (n : ℕ) : (intRange n).card = n := by
  rw [intRange, Finset.card_image_of_injective _ Nat.cast_injective, Finset.card_range]

theorem revealSeq_cons (i : ℕ) (l : List ℕ) (s : CardStore) :
    revealSeq (i :: l) s = revealSeq l (revealCard (i : ℤ) s) := rfl

theorem revealSeq_boosterCards (l : List ℕ) (s : CardStore) :
    (revealSeq l s).boosterCards = s.boosterCards := by
  induction l generalizing s with
  | nil => rfl
  | cons i l ih => rw [revealSeq_cons, ih, revealCard_boosterCards]

theorem revealSeq_revealedIndices (l : List ℕ) (s : CardStore) :
    (revealSeq l s).revealedIndices =
      s.revealedIndices ∪ (l.map (fun k : ℕ => (k : ℤ))).toFinset := by
  induction l generalizing s with
  | nil => simp [revealSeq]
  | cons i l ih =>
      rw [revealSeq_cons, ih, revealCard_revealedIndices]
      ext x
      simp only [Finset.mem_union, Finset.mem_insert, List.toFinset_cons, List.map_cons,
        List.mem_toFinset, List.mem_map]
      tauto

theorem revealSeq_boosterState (l : List ℕ) (hl : l ≠ []) (s : CardStore) :
    (revealSeq l s).boosterState =
      (if (revealSeq l s).revealedIndices.card = s.boosterCards.length
        then .summary else .revealing) := by
  induction l generalizing s with
  | nil => exact absurd rfl hl
  | cons i l ih =>
      cases l with
      | nil => rfl
      | cons j l2 =>
          rw [revealSeq_cons, ih (by simp), revealCard_boosterCards]

theorem toFinset_map_range (n : ℕ) :
    ((List.range n).map (fun k : ℕ => (k : ℤ))).toFinset = intRange n := by
  ext x
  simp [intRange]

/-- Claim C1: the claim as stated fails on the code.  Counterexample:
the reachable state immediately after `startBooster` with a 5-card hand is
in phase `pack`, yet `revealCard 0` changes both the phase (to `revealing`)
and the revealed set — the store action has no phase guard. -/
theorem revealCard_pack_counterexample :
    Reachable (startBooster (List.replicate 5 demoCard) initialStore) ∧
    (startBooster (List.replicate 5 demoCard) initialStore).boosterState = .pack ∧
    ¬((revealCard 0 (startBooster (List.replicate 5 demoCard) initialStore)).boosterState =
        (startBooster (List.replicate 5 demoCard) initialStore).boosterState ∧
      (revealCard 0 (startBooster (List.replicate 5 demoCard) initialStore)).revealedIndices =
        (startBooster (List.replicate 5 demoCard) initialStore).revealedIndices) := by
  refine ⟨⟨[Action.startBooster (List.replicate 5 demoCard)], rfl⟩, rfl, ?_⟩
  intro h
  exact absurd h.1 (by decide)

/-- Claim C1 (amended): the store-level `revealCard` performs no phase
guard.  Called in phase `pack` or `opening` it still inserts the index and
recomputes the phase from the new set size (jumping directly to
`revealing`, or `summary` when the set becomes full); the ordered
progression pack→opening→revealing is driven by `tearOpen` and
`finishOpening`, and the reveal UI is only mounted in the
revealing/summary phases. -/
theorem revealCard_no_phase_guard (s : CardStore) (i : ℤ)
    (h : s.boosterState = .pack ∨ s.boosterState = .opening) :
    (revealCard i s).revealedIndices = insert i s.revealedIndices ∧
    (revealCard i s).boosterState =
      (if (insert i s.revealedIndices).card = s.boosterCards.length
        then .summary else .revealing) ∧
    (tearOpen s).boosterState = .opening ∧
    (finishOpening s).boosterState = .revealing := by
  exact ⟨rfl, rfl, rfl, rfl⟩

/-- Closed instance of `revealCard_no_phase_guard` at the reachable pack
state with a 5-card hand and index 2. -/
theorem revealCard_no_phase_guard_witness :
    ((startBooster (List.replicate 5 demoCard) initialStore).boosterState = .pack ∨
      (startBooster (List.replicate 5 demoCard) initialStore).boosterState = .opening) ∧
    ((revealCard 2 (startBooster (List.replicate 5 demoCard) initialStore)).revealedIndices =
        insert 2 (startBooster (List.replicate 5 demoCard) initialStore).revealedIndices ∧
      (revealCard 2 (startBooster (List.replicate 5 demoCard) initialStore)).boosterState =
        (if (insert 2 (startBooster (List.replicate 5 demoCard) initialStore).revealedIndices).card =
            (startBooster (List.replicate 5 demoCard) initialStore).boosterCards.length
          then .summary else .revealing) ∧
      (tearOpen (startBooster (List.replicate 5 demoCard) initialStore)).boosterState = .opening ∧
      (finishOpening (startBooster (List.replicate 5 demoCard) initialStore)).boosterState =
        .revealing) :=
  ⟨Or.inl rfl, revealCard_no_phase_guard _ 2 (Or.inl rfl)⟩

/-- Claim C2: in the revealing phase with an n-card hand, revealing the one
remaining unrevealed in-range index fills the revealed set (size n) and
moves the phase to `summary`; any reveal leaving the set size strictly
below n keeps the phase at `revealing`; and the reveal-all action (folding
`revealCard` over every hand index) ends with the full in-range set and
phase `summary`. -/
theorem revealing_transitions (s : CardStore) (hs : s.boosterState = .revealing) :
    (∀ i : ℤ, i ∈ intRange s.boosterCards.length →
        s.revealedIndices = (intRange s.boosterCards.length).erase i →
        (revealCard i s).revealedIndices.card = s.boosterCards.length ∧
        (revealCard i s).boosterState = .summary) ∧
    (∀ i : ℤ, (insert i s.revealedIndices).card < s.boosterCards.length →
        (revealCard i s).boosterState = .revealing) ∧
    (0 < s.boosterCards.length →
        s.revealedIndices ⊆ intRange s.boosterCards.length →
        (revealAll s).revealedIndices = intRange s.boosterCards.length ∧
        (revealAll s).boosterState = .summary) := by
  refine ⟨?_, ?_, ?_⟩
  · intro i hmem herase
    have hfull : insert i s.revealedIndices = intRange s.boosterCards.length := by
      rw [herase, Finset.insert_erase hmem]
    constructor
    · rw [revealCard_revealedIndices, hfull, intRange_card]
    · rw [revealCard_boosterState, hfull, intRange_card, if_pos rfl]
  · intro i hlt
    rw [revealCard_boosterState, if_neg (Nat.ne_of_lt hlt)]
  · intro hpos hsub
    have hne : List.range s.boosterCards.length ≠ [] := by
      rw [ne_eq, List.range_eq_nil]
      omega
    have hrev : (revealAll s).revealedIndices = intRange s.boosterCards.length := by
      rw [revealAll, revealSeq_revealedIndices, toFinset_map_range,
        Finset.union_eq_right.mpr hsub]
    refine ⟨hrev, ?_⟩
    rw [revealAll, revealSeq_boosterState _ hne]
    rw [show (revealSeq (List.range s.boosterCards.length) s) = revealAll s from rfl, hrev,
      intRange_card, if_pos rfl]

/-- Closed instance of `revealing_transitions` on the reachable 2-card
revealing state: revealing the last index yields `summary`, an
out-of-range reveal that keeps the set below size 2 stays `revealing`,
and reveal-all yields `summary`. -/
theorem revealing_transitions_witness :
    ((revealCard 0 storeRevealing2).boosterState = .revealing ∧
      (revealCard 1 (revealCard 0 storeRevealing2)).boosterState = .summary) ∧
    (revealCard 5 storeRevealing2).boosterState = .revealing ∧
    (revealAll storeRevealing2).boosterState = .summary := by
  have h := revealing_transitions (revealCard 0 storeRevealing2) (by decide)
  have h2 := revealing_transitions storeRevealing2 (by decide)
  exact ⟨⟨by decide, (h.1 1 (by decide) (by decide)).2⟩,
    h2.2.1 5 (by decide), (h2.2.2 (by decide) (by decide)).2⟩

/-- Claim C3: the claim as stated fails on the code.  Counterexample: in
the reachable state `tearOpen (revealCard 0 (startBooster [demoCard] s0))`
— phase `opening` with index 0 already revealed — revealing 0 again keeps
the set cardinality but rewrites the phase to `summary`, because
`revealCard` recomputes the phase unconditionally from the set size. -/
theorem revealCard_idempotent_counterexample :
    Reachable storeOpeningRevealed ∧
    (0 : ℤ) ∈ storeOpeningRevealed.revealedIndices ∧
    (revealCard 0 storeOpeningRevealed).revealedIndices.card =
      storeOpeningRevealed.revealedIndices.card ∧
    (revealCard 0 storeOpeningRevealed).boosterState ≠ storeOpeningRevealed.boosterState := by
  exact ⟨⟨[.startBooster [demoCard], .revealCard 0, .tearOpen], rfl⟩,
    by decide, by decide, by decide⟩

/-- Claim C3 (amended): revealing an already-revealed index leaves the
revealed set (hence its cardinality) unchanged and re-runs the
revealing→summary size check with the same outcome as the call that last
set the phase: the result phase is `summary` iff the set is full, and the
whole store is unchanged whenever the current phase already equals that
outcome (as it does after any previous revealCard call); a `pack` or
`opening` phase, however, is overwritten. -/
theorem revealCard_idem_amended (s : CardStore) (i : ℤ) (h : i ∈ s.revealedIndices) :
    (revealCard i s).revealedIndices = s.revealedIndices ∧
    (revealCard i s).revealedIndices.card = s.revealedIndices.card ∧
    (revealCard i s).boosterState =
      (if s.revealedIndices.card = s.boosterCards.length then .summary else .revealing) ∧
    (s.boosterState =
        (if s.revealedIndices.card = s.boosterCards.length then .summary else .revealing) →
      revealCard i s = s) := by
  have hins : insert i s.revealedIndices = s.revealedIndices := Finset.insert_eq_self.mpr h
  obtain ⟨c, sel, vm, gt, bs, bc, rev⟩ := s
  simp only [revealCard, Finset.mem_insert] at *
  rw [hins]
  refine ⟨rfl, rfl, rfl, ?_⟩
  intro hstate
  rw [← hstate]

/-- Closed instance of `revealCard_idem_amended` at the reachable
revealing state with a 2-card hand where index 0 is already revealed. -/
theorem revealCard_idem_amended_witness :
    (0 : ℤ) ∈ (revealCard 0 storeRevealing2).revealedIndices ∧
    ((revealCard 0 (revealCard 0 storeRevealing2)).revealedIndices =
        (revealCard 0 storeRevealing2).revealedIndices ∧
      (revealCard 0 (revealCard 0 storeRevealing2)).revealedIndices.card =
        (revealCard 0 storeRevealing2).revealedIndices.card ∧
      (revealCard 0 (revealCard 0 storeRevealing2)).boosterState =
        (if (revealCard 0 storeRevealing2).revealedIndices.card =
            (revealCard 0 storeRevealing2).boosterCards.length
          then .summary else .revealing) ∧
      ((revealCard 0 storeRevealing2).boosterState =
          (if (revealCard 0 storeRevealing2).revealedIndices.card =
              (revealCard 0 storeRevealing2).boosterCards.length
            then .summary else .revealing) →
        revealCard 0 (revealCard 0 storeRevealing2) = revealCard 0 storeRevealing2)) :=
  ⟨by decide, revealCard_idem_amended _ 0 (by decide)⟩

/-- Claim C10: `revealCard` performs no bounds check: every integer index,
negative or beyond the hand length, is inserted into the revealed set and
counts toward the size comparison.  On the reachable revealing state with
a 1-card hand, revealing -3 (or 9) reaches `summary` while the in-range
index 0 was never revealed. -/
theorem revealCard_unbounded_index :
    (∀ (s : CardStore) (i : ℤ),
      (revealCard i s).revealedIndices = insert i s.revealedIndices) ∧
    Reachable storeRevealing1 ∧
    storeRevealing1.boosterState = .revealing ∧
    (revealCard (-3) storeRevealing1).boosterState = .summary ∧
    (0 : ℤ) ∉ (revealCard (-3) storeRevealing1).revealedIndices ∧
    (revealCard 9 storeRevealing1).boosterState = .summary ∧
    (0 : ℤ) ∉ (revealCard 9 storeRevealing1).revealedIndices := by
  exact ⟨fun s i => rfl, ⟨[.startBooster [demoCard], .tearOpen, .finishOpening], rfl⟩,
    rfl, by decide, by decide, by decide, by decide⟩

/-! Camera zoom controller, scroll-to-pan variant (gallery pans, other
modes zoom), with its per-mode ZOOM_LIMITS table. -/

/-- Modelled from the spec: `clamp(value, min, max)` from @/utils/mathUtils
(the utils module is not present under src/): the value restricted to the
[lo, hi] window. -/
def clamp (value lo hi : ℚ) : ℚ := min (max value lo) hi

/-- A per-mode zoom window entry of ZOOM_LIMITS. -/
structure ZoomLimits where
  min : ℚ
  max : ℚ
  deriving DecidableEq, Repr

/-- ZOOM_LIMITS of the scroll-to-pan ZoomController variant. -/
def ZOOM_LIMITS : ViewMode → ZoomLimits
  | .gallery => ⟨10, 10⟩
  | .inspect => ⟨3, 8⟩
  | .booster => ⟨8, 18⟩

/-- ZOOM_SPEED = 0.8. -/
def ZOOM_SPEED : ℚ := 4/5

/-- SCROLL_SPEED = 0.008. -/
def SCROLL_SPEED : ℚ := 1/125

/-- The targetZ / targetY refs of the ZoomController. -/
structure CamTargets where
  targetZ : ℚ
  targetY : ℚ
  deriving DecidableEq, Repr

/-- The target depth installed on a view-mode switch. -/
def resetTargetZ : ViewMode → ℚ
  | .inspect => 6
  | .booster => 12
  | .gallery => 10

/-- handleWheel of the scroll-to-pan ZoomController: in gallery mode the
wheel adjusts the pan target (clamped to the scrollable range derived from
contentHeight); in the other modes it adds ±ZOOM_SPEED to the zoom target
and clamps it to the mode window. -/
def handleWheel (viewMode : ViewMode) (contentHeight deltaY : ℚ)
    (t : CamTargets) : CamTargets :=
  if viewMode = .gallery then
    let maxScrollDown := max 0 (contentHeight / 2)
    let maxScrollUp := if 0 < contentHeight then contentHeight / 2 - 7/2 else 0
    { t with targetY := clamp (t.targetY - deltaY * SCROLL_SPEED) (-maxScrollDown) maxScrollUp }
  else
    let delta := if 0 < deltaY then ZOOM_SPEED else -ZOOM_SPEED
    let z := clamp (t.targetZ + delta) (ZOOM_LIMITS viewMode).min (ZOOM_LIMITS viewMode).max
    { t with targetZ := z }

/-- Folding handleWheel over a sequence of wheel deltaY values. -/
def runWheel (viewMode : ViewMode) (contentHeight : ℚ) (events : List ℚ)
    (t : CamTargets) : CamTargets :=
  events.foldl (fun acc e => handleWheel viewMode contentHeight e acc) t

theorem clamp_mem (v lo hi : ℚ) (h : lo ≤ hi) :
    lo ≤ clamp v lo hi ∧ clamp v lo hi ≤ hi :=
  ⟨le_min (le_max_right v lo) h, min_le_right _ _⟩

theorem zoomLimits_le (m : ViewMode) : (ZOOM_LIMITS m).min ≤ (ZOOM_LIMITS m).max := by
  cases m <;> norm_num [ZOOM_LIMITS]

theorem handleWheel_targetZ_mem (m : ViewMode) (ch e : ℚ) (t : CamTargets)
    (h1 : (ZOOM_LIMITS m).min ≤ t.targetZ) (h2 : t.targetZ ≤ (ZOOM_LIMITS m).max) :
    (ZOOM_LIMITS m).min ≤ (handleWheel m ch e t).targetZ ∧
      (handleWheel m ch e t).targetZ ≤ (ZOOM_LIMITS m).max := by
  by_cases hm : m = .gallery
  · subst hm
    simpa [handleWheel] using ⟨h1, h2⟩
  · simp only [handleWheel, if_neg hm]
    exact clamp_mem _ _ _ (zoomLimits_le m)

theorem runWheel_targetZ_mem (m : ViewMode) (ch : ℚ) (events : List ℚ)
    (t : CamTargets)
    (h1 : (ZOOM_LIMITS m).min ≤ t.targetZ) (h2 : t.targetZ ≤ (ZOOM_LIMITS m).max) :
    (ZOOM_LIMITS m).min ≤ (runWheel m ch events t).targetZ ∧
      (runWheel m ch events t).targetZ ≤ (ZOOM_LIMITS m).max := by
  induction events generalizing t with
  | nil => exact ⟨h1, h2⟩
  | cons e es ih =>
      have h := handleWheel_targetZ_mem m ch e t h1 h2
      exact ih (handleWheel m ch e t) h.1 h.2

/-- Claim C4: with the scroll-to-pan controller, for every view mode,
content height, initial pan target and wheel sequence starting from the
mode reset depth, the zoom target stays inside the mode window — gallery
window is [10,10] (gallery wheel events only pan, never touch the zoom
target), inspect [3,8], booster [8,18]. -/
theorem zoom_target_clamped :
    ZOOM_LIMITS .gallery = ⟨10, 10⟩ ∧
    ZOOM_LIMITS .inspect = ⟨3, 8⟩ ∧
    ZOOM_LIMITS .booster = ⟨8, 18⟩ ∧
    (∀ (ch e : ℚ) (t : CamTargets), (handleWheel .gallery ch e t).targetZ = t.targetZ) ∧
    ∀ (m : ViewMode) (ch y0 : ℚ) (events : List ℚ),
      (ZOOM_LIMITS m).min ≤ (runWheel m ch events ⟨resetTargetZ m, y0⟩).targetZ ∧
      (runWheel m ch events ⟨resetTargetZ m, y0⟩).targetZ ≤ (ZOOM_LIMITS m).max := by
  refine ⟨rfl, rfl, rfl, fun ch e t => rfl, fun m ch y0 events => ?_⟩
  refine runWheel_targetZ_mem m ch events _ ?_ ?_ <;>
    cases m <;> norm_num [ZOOM_LIMITS, resetTargetZ]

/-! Drag-to-tear gesture tracking of BoosterPack (pack phase). -/

/-- DRAG_THRESHOLD_PX = 80. -/
def DRAG_THRESHOLD_PX : ℚ := 80

/-- The dragRef tracker of BoosterPack. -/
structure DragState where
  active : Bool
  startY : ℚ
  currentDelta : ℚ
  deriving DecidableEq, Repr

/-- handlePointerDown in pack phase: arms the drag at clientY y0. -/
def pointerDown (y0 : ℚ) : DragState := ⟨true, y0, 0⟩

/-- The window pointermove handler (onMove): while armed it tracks the
non-negative upward delta startY − clientY, and once the delta exceeds
DRAG_THRESHOLD_PX it disarms, resets the delta and fires onTearOpen — the
second component counts those firings. -/
def pointerMove (y : ℚ) (st : DragState × ℕ) : DragState × ℕ :=
  if st.1.active then
    let delta := st.1.startY - y
    if DRAG_THRESHOLD_PX < delta then
      (⟨false, st.1.startY, 0⟩, st.2 + 1)
    else
      (⟨true, st.1.startY, max 0 delta⟩, st.2)
  else st

/-- The window pointerup handler (onUp): disarms without firing. -/
def pointerUp (st : DragState × ℕ) : DragState × ℕ :=
  if st.1.active then (⟨false, st.1.startY, 0⟩, st.2) else st

/-- One full gesture: a pointer-down at y0 followed by the given
pointer-move clientY positions. -/
def runGesture (y0 : ℚ) (moves : List ℚ) : DragState × ℕ :=
  moves.foldl (fun st y => pointerMove y st) (pointerDown y0, 0)

theorem pointerMove_inactive (y sy cd : ℚ) (n : ℕ) :
    pointerMove y (⟨false, sy, cd⟩, n) = (⟨false, sy, cd⟩, n) := rfl

theorem foldl_pointerMove_inactive (moves : List ℚ) (sy cd : ℚ) (n : ℕ) :
    moves.foldl (fun st y => pointerMove y st) (⟨false, sy, cd⟩, n) = (⟨false, sy, cd⟩, n) := by
  induction moves with
  | nil => rfl
  | cons y ys ih => rw [List.foldl_cons, pointerMove_inactive, ih]

theorem foldl_pointerMove_count (moves : List ℚ) (y0 cd : ℚ) (n : ℕ) :
    (moves.foldl (fun st y => pointerMove y st) (⟨true, y0, cd⟩, n)).2 =
      n + (if moves.any (fun y => decide (DRAG_THRESHOLD_PX < y0 - y)) then 1 else 0) := by
  induction moves generalizing cd with
  | nil => simp
  | cons y ys ih =>
      rw [List.foldl_cons]
      by_cases hy : DRAG_THRESHOLD_PX < y0 - y
      · rw [show pointerMove y (⟨true, y0, cd⟩, n) = (⟨false, y0, 0⟩, n + 1) from by
          simp [pointerMove, hy]]
        rw [foldl_pointerMove_inactive]
        simp [hy]
      · rw [show pointerMove y (⟨true, y0, cd⟩, n) = (⟨true, y0, max 0 (y0 - y)⟩, n) from by
          simp [pointerMove, hy]]
        rw [ih]
        simp [hy]

/-- Claim C5: within a single drag gesture in the pack phase, the
pack→opening callback fires exactly once iff some move takes the upward
delta past DRAG_THRESHOLD_PX (and zero times otherwise), regardless of how
many further moves stay past the threshold; a trailing pointer-up never
fires it. -/
theorem tear_fires_exactly_once (y0 : ℚ) (moves : List ℚ) :
    (runGesture y0 moves).2 =
      (if moves.any (fun y => decide (DRAG_THRESHOLD_PX < y0 - y)) then 1 else 0) ∧
    (runGesture y0 moves).2 ≤ 1 ∧
    (pointerUp (runGesture y0 moves)).2 = (runGesture y0 moves).2 ∧
    ((¬ ∃ y ∈ moves, DRAG_THRESHOLD_PX < y0 - y) → (runGesture y0 moves).2 = 0) := by
  have hcount := foldl_pointerMove_count moves y0 0 0
  refine ⟨by simpa [runGesture, pointerDown] using hcount, ?_, ?_, ?_⟩
  · rw [show (runGesture y0 moves).2 = _ from by simpa [runGesture, pointerDown] using hcount]
    split <;> omega
  · unfold pointerUp
    split <;> rfl
  · intro hnone
    rw [show (runGesture y0 moves).2 = _ from by simpa [runGesture, pointerDown] using hcount]
    simp only [Nat.zero_add, ite_eq_right_iff, List.any_eq_true, decide_eq_true_eq]
    intro ⟨y, hy, hgt⟩
    exact absurd ⟨y, hy, hgt⟩ hnone

/-- Closed instance of `tear_fires_exactly_once`: a gesture from clientY
100 moving to 90 then 95 never exceeds the 80 px threshold and fires the
transition zero times. -/
theorem tear_fires_exactly_once_witness :
    (runGesture 100 [90, 95]).2 = 0 :=
  (tear_fires_exactly_once 100 [90, 95]).2.2.2 (by
    rintro ⟨y, hy, hgt⟩
    simp only [List.mem_cons, List.not_mem_nil, or_false] at hy
    rcases hy with rfl | rfl <;> norm_num [DRAG_THRESHOLD_PX] at hgt)

/-! Booster pull, smoothing step, opening timer, and rarity fallbacks. -/

/-- pullBoosterCards from the application root: an empty pool yields [];
otherwise 5 draws of pool[Math.floor(Math.random() * pool.length)]
(duplicates allowed).  The random stream is modelled by r, with
r i < pool.length standing for floor(random*length) being in range. -/
def pullBoosterCards (pool : List Card) (r : ℕ → ℕ) : List Card :=
  if pool.length = 0 then []
  else (List.range 5).map (fun i => pool.getD (r i) default)

/-- Claim C6: for an empty pool the pull returns [] without erroring; for
a non-empty pool (with every draw in range, as Math.random guarantees) it
returns exactly 5 entries, each an element of the pool. -/
theorem pullBoosterCards_spec (pool : List Card) (r : ℕ → ℕ) :
    (pool = [] → pullBoosterCards pool r = []) ∧
    (pool ≠ [] → (∀ i, r i < pool.length) →
      (pullBoosterCards pool r).length = 5 ∧
      ∀ cd ∈ pullBoosterCards pool r, cd ∈ pool) := by
  constructor
  · intro h
    subst h
    rfl
  · intro hne hr
    have hlen : pool.length ≠ 0 := by
      simpa [List.length_eq_zero] using hne
    constructor
    · simp [pullBoosterCards, hlen]
    · intro cd hcd
      simp only [pullBoosterCards, if_neg hlen, List.mem_map, List.mem_range] at hcd
      obtain ⟨i, -, hi⟩ := hcd
      rw [← hi, List.getD_eq_getElem pool default (hr i)]
      exact List.getElem_mem _

/-- Closed instance of `pullBoosterCards_spec` on the empty pool and on a
singleton pool with the constant-zero draw stream. -/
theorem pullBoosterCards_spec_witness :
    pullBoosterCards ([] : List Card) (fun _ => 0) = [] ∧
    (pullBoosterCards [demoCard] (fun _ => 0)).length = 5 ∧
    ∀ cd ∈ pullBoosterCards [demoCard] (fun _ => 0), cd ∈ [demoCard] :=
  ⟨(pullBoosterCards_spec [] (fun _ => 0)).1 rfl,
    (pullBoosterCards_spec [demoCard] (fun _ => 0)).2 (by simp) (fun i => Nat.one_pos)⟩

/-- Modelled from the spec: `lerp(current, target, t)` from
@/utils/mathUtils (the utils module is not present under src/): linear
interpolation current + (target − current) * t, with t not clamped by the
helper. -/
def lerp (current target t : ℝ) : ℝ := current + (target - current) * t

/-- Claim C7: one smoothing step next = lerp(current, target, rate*dt)
with dt ≥ 0, rate ≥ 0 and rate*dt ≤ 1 never moves away from the target:
|next − target| ≤ |current − target|; the helper itself does not clamp
the factor. -/
theorem lerp_no_overshoot (current target rate deltaTime : ℝ)
    (hdt : 0 ≤ deltaTime) (hrate : 0 ≤ rate) (h1 : rate * deltaTime ≤ 1) :
    |lerp current target (rate * deltaTime) - target| ≤ |current - target| := by
  have ht0 : 0 ≤ rate * deltaTime := mul_nonneg hrate hdt
  have key : lerp current target (rate * deltaTime) - target =
      (current - target) * (1 - rate * deltaTime) := by
    unfold lerp
    ring
  rw [key, abs_mul]
  have habs : |1 - rate * deltaTime| ≤ 1 := by
    rw [abs_le]
    constructor <;> linarith
  calc |current - target| * |1 - rate * deltaTime|
      ≤ |current - target| * 1 := mul_le_mul_of_nonneg_left habs (abs_nonneg _)
    _ = |current - target| := mul_one _

/-- Closed instance of `lerp_no_overshoot` at current 0, target 1,
rate 2, deltaTime 1/4. -/
theorem lerp_no_overshoot_witness :
    |lerp 0 1 ((2 : ℝ) * (1 / 4)) - 1| ≤ |(0 : ℝ) - 1| :=
  lerp_no_overshoot 0 1 2 (1 / 4) (by norm_num) (by norm_num) (by norm_num)

/-- The opening-branch animation state of BoosterPack.useFrame: the
accumulated openTimer, the finishCalled one-shot flag, and an
instrumentation counter of onFinishOpening invocations. -/
structure OpeningAnim where
  openTimer : ℚ
  finishCalled : Bool
  finishCount : ℕ
  deriving DecidableEq, Repr

/-- One frame of the opening branch: `a.openTimer += delta` and, when
`a.openTimer > 1.0 && !a.finishCalled`, the flag is set and the finish
callback fires (counted). -/
def openingFrame (delta : ℚ) (a : OpeningAnim) : OpeningAnim :=
  let t := a.openTimer + delta
  if 1 < t ∧ a.finishCalled = false then ⟨t, true, a.finishCount + 1⟩
  else ⟨t, a.finishCalled, a.finishCount⟩

/-- Running the opening branch over a list of frame deltas from the mount
state (timer 0, flag unset, zero firings). -/
def runOpening (deltas : List ℚ) : OpeningAnim :=
  deltas.foldl (fun a d => openingFrame d a) ⟨0, false, 0⟩

/-- Invariant tying the one-shot flag and fire count to the timer. -/
def OpeningInv (a : OpeningAnim) : Prop :=
  (a.finishCalled = true ↔ 1 < a.openTimer) ∧
  a.finishCount = (if 1 < a.openTimer then 1 else 0)

theorem openingFrame_timer (d : ℚ) (a : OpeningAnim) :
    (openingFrame d a).openTimer = a.openTimer + d := by
  unfold openingFrame
  by_cases hc : 1 < a.openTimer + d ∧ a.finishCalled = false
  · rw [if_pos hc]
  · rw [if_neg hc]

theorem openingFrame_inv (d : ℚ) (a : OpeningAnim) (hd : 0 ≤ d)
    (h : OpeningInv a) : OpeningInv (openingFrame d a) := by
  obtain ⟨h1, h2⟩ := h
  by_cases hc : 1 < a.openTimer
  · have hcalled : a.finishCalled = true := h1.mpr hc
    have ht : 1 < a.openTimer + d := by linarith
    constructor <;> simp [openingFrame, hcalled, ht, h2, hc]
  · have hcalled : a.finishCalled = false := by
      cases hfc : a.finishCalled
      · rfl
      · exact absurd (h1.mp hfc) hc
    by_cases ht : 1 < a.openTimer + d
    · constructor <;> simp [openingFrame, hcalled, ht, h2, hc]
    · constructor <;> simp [openingFrame, hcalled, ht, h2, hc]

theorem foldl_openingFrame_timer (deltas : List ℚ) (a : OpeningAnim) :
    (deltas.foldl (fun a d => openingFrame d a) a).openTimer =
      a.openTimer + deltas.sum := by
  induction deltas generalizing a with
  | nil => simp
  | cons d ds ih =>
      rw [List.foldl_cons, ih, openingFrame_timer, List.sum_cons]
      ring

theorem foldl_openingFrame_inv (deltas : List ℚ) (a : OpeningAnim)
    (hd : ∀ d ∈ deltas, 0 ≤ d) (h : OpeningInv a) :
    OpeningInv (deltas.foldl (fun a d => openingFrame d a) a) := by
  induction deltas generalizing a with
  | nil => exact h
  | cons d ds ih =>
      exact ih _ (fun x hx => hd x (List.mem_cons_of_mem _ hx))
        (openingFrame_inv d a (hd d (List.mem_cons_self _ _)) h)

/-- Claim C8: over any sequence of non-negative frame deltas, the finish
callback of the opening branch fires exactly once when the accumulated
timer exceeds the 1.0-second duration and never again afterwards, and zero
times otherwise. -/
theorem opening_finish_fires_once (deltas : List ℚ)
    (hd : ∀ d ∈ deltas, 0 ≤ d) :
    (runOpening deltas).finishCount = (if 1 < deltas.sum then 1 else 0) ∧
    (runOpening deltas).finishCount ≤ 1 := by
  have hinv : OpeningInv (runOpening deltas) :=
    foldl_openingFrame_inv deltas ⟨0, false, 0⟩ hd (by constructor <;> norm_num)
  have htimer : (runOpening deltas).openTimer = deltas.sum := by
    rw [runOpening, foldl_openingFrame_timer]
    norm_num
  refine ⟨?_, ?_⟩
  · rw [hinv.2, htimer]
  · rw [hinv.2]
    split <;> omega

/-- Closed instance of `opening_finish_fires_once` on three frames of
0.6 s: the callback fires exactly once. -/
theorem opening_finish_fires_once_witness :
    (runOpening [3/5, 3/5, 3/5]).finishCount =
      (if (1 : ℚ) < ([3/5, 3/5, 3/5] : List ℚ).sum then 1 else 0) ∧
    (runOpening [3/5, 3/5, 3/5]).finishCount ≤ 1 :=
  opening_finish_fires_once [3/5, 3/5, 3/5] (by
    intro d hd
    simp only [List.mem_cons, List.not_mem_nil, or_false] at hd
    rcases hd with rfl | rfl | rfl <;> norm_num)

/-- EDGE_COLORS from CardMesh.tsx. -/
def EDGE_COLORS : List (String × String) :=
  [("classique", "#e8e0d8"), ("uncommon", "#c0c0c0"), ("legendary", "#ffb830"),
   ("historique", "#8b6914"), ("concept", "#00ccff"), ("blueprint", "#4fc3f7")]

/-- `EDGE_COLORS[card.rarity] ?? EDGE_COLORS.classique` (CardMesh line
121); the classique entry is the literal "#e8e0d8". -/
def edgeColor (rarity : String) : String :=
  (EDGE_COLORS.lookup rarity).getD "#e8e0d8"

/-- RARITY_COLORS from GalleryScene.tsx. -/
def RARITY_COLORS : List (String × String) :=
  [("classique", "#a0a0a0"), ("concept", "#daa520"), ("blueprint", "#1a3cba"),
   ("historique", "#c8a87a"), ("uncommon", "#50c878"), ("legendary", "#ffb830")]

/-- RARITY_LABELS from GalleryScene.tsx. -/
def RARITY_LABELS : List (String × String) :=
  [("classique", "CLASSIQUE"), ("concept", "CONCEPT"), ("blueprint", "BLUEPRINT"),
   ("historique", "HISTORIQUE"), ("uncommon", "UNCOMMON"), ("legendary", "LEGENDARY")]

/-- `RARITY_COLORS[rarity] ?? '#888888'` from SeparatorGroup. -/
def separatorColor (rarity : String) : String :=
  (RARITY_COLORS.lookup rarity).getD "#888888"

/-- `RARITY_LABELS[rarity] ?? rarity.toUpperCase()` from SeparatorGroup. -/
def separatorLabel (rarity : String) : String :=
  (RARITY_LABELS.lookup rarity).getD rarity.toUpper

/-- Claim C9: a rarity string absent from the lookup tables falls back to
the fixed defaults — the CardMesh edge color to the classique color
"#e8e0d8", the separator color to the neutral "#888888", and the
separator label to the raw rarity string uppercased; every lookup is
total, so no rarity value errors. -/
theorem unknown_rarity_fallbacks (rarity : String)
    (h1 : EDGE_COLORS.lookup rarity = none)
    (h2 : RARITY_COLORS.lookup rarity = none)
    (h3 : RARITY_LABELS.lookup rarity = none) :
    edgeColor rarity = "#e8e0d8" ∧
    separatorColor rarity = "#888888" ∧
    separatorLabel rarity = rarity.toUpper := by
  simp [edgeColor, separatorColor, separatorLabel, h1, h2, h3]

/-- Closed instance of `unknown_rarity_fallbacks` at the unknown rarity
"mythic". -/
theorem unknown_rarity_fallbacks_witness :
    edgeColor "mythic" = "#e8e0d8" ∧
    separatorColor "mythic" = "#888888" ∧
    separatorLabel "mythic" = ("mythic").toUpper :=
  unknown_rarity_fallbacks "mythic" rfl rfl rfl

end RCards
